import Mathlib

/-!
Verification of the transfer-scraper core: a shallow embedding of the
fee/currency parsing, page extraction, retry loop, URL validation and final
sorting logic of `scraper.py`, with theorems settling the claims of the
specification about them.

Python floats are modelled as exact rationals (every numeral the parsers
accept is a finite decimal); Python exceptions are modelled as `Except.error`;
Python `None` as `Option.none`.
-/

/-- Decidable equality for exception-carrying results, used to evaluate the
embedded parsers on concrete inputs. -/
instance {ε α : Type} [DecidableEq ε] [DecidableEq α] : DecidableEq (Except ε α) :=
  fun a b =>
    match a, b with
    | .ok x, .ok y =>
      if h : x = y then isTrue (by rw [h]) else isFalse (fun hh => h (Except.ok.inj hh))
    | .error e, .error f =>
      if h : e = f then isTrue (by rw [h]) else isFalse (fun hh => h (Except.error.inj hh))
    | .ok _, .error _ => isFalse (fun hh => Except.noConfusion hh)
    | .error _, .ok _ => isFalse (fun hh => Except.noConfusion hh)

/-- Characters matched by the character class `[0-9.]` of the tokenizer regex:
ASCII digits and the decimal point. -/
def isNumChar (c : Char) : Bool := c.isDigit || c = '.'

/-- Embedding of the `re.findall` tokenization of `_parse_currency` (pattern
`[0-9.]+|[^0-9.]`): maximal runs of
digits-or-dots become one token, any other character is a single-character
token, in input order. Implemented by a structural right fold: a digit-or-dot
character extends the following token when that token also starts with a
digit-or-dot (yielding the maximal runs of the regex), otherwise starts a new
token; any other character is always its own token. -/
def tokenize : List Char → List (List Char)
  | [] => []
  | c :: rest =>
    let r := tokenize rest
    if isNumChar c then
      match r with
      | (d :: t) :: gs => if isNumChar d then (c :: d :: t) :: gs else [c] :: r
      | _ => [c] :: r
    else
      [c] :: r

/-- Embedding of Python `str.split(sep)` for a one-character separator:
splits at every occurrence, keeping empty pieces, so the result is always a
non-empty list of pieces. -/
def pySplit (sep : Char) : List Char → List (List Char)
  | [] => [[]]
  | c :: rest =>
    match pySplit sep rest with
    | [] => if c = sep then [[], []] else [[c]]
    | g :: gs => if c = sep then [] :: g :: gs else (c :: g) :: gs

/-- Numeric value of a list of ASCII digit characters, most significant first. -/
def digitsToNat (cs : List Char) : Nat :=
  cs.foldl (fun a c => 10 * a + (c.toNat - 48)) 0

/-- Value of a numeral made of digits and at most one dot, as an exact
rational: integer part plus fractional part scaled by a power of ten. -/
def ratOfNumChars (cs : List Char) : ℚ :=
  match pySplit '.' cs with
  | [w] => (digitsToNat w : ℚ)
  | [w, f] => (digitsToNat w : ℚ) + (digitsToNat f : ℚ) / 10 ^ f.length
  | _ => 0

/-- Model of Python `float()` on the ASCII tokens the tokenizer can produce:
a token parses iff it consists of digits and dots with at least one digit and
at most one dot; anything else (for instance a lone currency symbol) raises
`ValueError`, modelled as `none`. -/
def floatOfToken (t : List Char) : Option ℚ :=
  if t.all isNumChar && t.any Char.isDigit && decide (t.count '.' ≤ 1) then
    some (ratOfNumChars t)
  else none

/-- Embedding of the `multipliers` dict lookup in `_parse_currency`: the keys
are `m` and `k`; any other key raises `KeyError`, modelled as `none`. -/
def multiplier (t : List Char) : Option ℚ :=
  if t = ['m'] then some 1000000 else if t = ['k'] then some 1000 else none

/-- Embedding of `_parse_currency` from `scraper.py`: `"-"` denotes a missing
value (Python `None`, here `Option.none`); otherwise the first character is
dropped (the currency symbol) and the remainder tokenized; a single token is
parsed as a plain float, otherwise the first token is the amount and the
second token the multiplier key. A float or dict-lookup failure (including an
empty token list, where `tokens[0]` raises `IndexError`) is an exception. -/
def parse_currency (x : String) : Except Unit (Option ℚ) :=
  if x = "-" then .ok none
  else
    match tokenize (x.data.drop 1) with
    | [t] =>
      match floatOfToken t with
      | some v => .ok (some v)
      | none => .error ()
    | t1 :: t2 :: _ =>
      match floatOfToken t1, multiplier t2 with
      | some a, some m => .ok (some (a * m))
      | _, _ => .error ()
    | [] => .error ()

/-- Embedding of the Python idiom taking the last piece of a split on the
colon character: the substring after the last
colon (the whole string when there is no colon). -/
def lastColonPart (x : String) : String :=
  String.mk ((pySplit ':' x.data).getLastD [])

/-- Embedding of Python `str.lower()`, character by character; the raw fee
texts are ASCII apart from the currency symbol, which lowercasing fixes. -/
def pyLower (s : String) : String :=
  String.mk (s.data.map Char.toLower)

/-- Embedding of `_get_fee_and_loan_status` from `scraper.py`, applied to the
raw fee text: lowercase, then test in order: Python `x in "-?"` (substring
membership in the two-character string), equality with `"free transfer"`,
equality with `"loan transfer"` or prefix `"end of loan"`, prefix
`"loan fee"` (parsing the part after the last colon), else parse the whole
text as currency. -/
def get_fee_and_loan_status (x0 : String) : Except Unit (Option ℚ × Bool) :=
  let x := pyLower x0
  if x.data <:+: "-?".data then .ok (some 0, false)
  else if x = "free transfer" then .ok (some 0, false)
  else if x = "loan transfer" ∨ "end of loan".data <+: x.data then .ok (some 0, true)
  else if "loan fee".data <+: x.data then
    (parse_currency (lastColonPart x)).map (fun fee => (fee, true))
  else
    (parse_currency x).map (fun fee => (fee, false))

/-- Result of the Fetcher: either the fetched page or the terminal
`RuntimeError` of `_get_page_soup`, carrying the URL and the attempt budget. -/
inductive FetchResult (α : Type) : Type
  | success : α → FetchResult α
  | exhausted : String → Nat → FetchResult α
deriving DecidableEq

/-- Embedding of the retry loop of `_get_page_soup` with `k` loop iterations
remaining out of `maxRetries`. The network and the random generator are
scripted so the loop is a pure function: `outcomes i` is the result of
attempt `i` (0-based; `none` models an `httpx.RequestError` or
`HTTPStatusError`), and `uniform i` is the value `random.uniform(2, 5)`
returns before the sleep that follows failed attempt `i`. Besides the result
the embedding accumulates the sleep durations
(`random.uniform(2, 5) * (attempt + 1)`) and the indices of the attempts
performed. -/
def fetchAux {α : Type} (outcomes : Nat → Option α) (uniform : Nat → ℚ)
    (url : String) (maxRetries : Nat) : Nat → FetchResult α × List ℚ × List Nat
  | 0 => (.exhausted url maxRetries, [], [])
  | k + 1 =>
    let attempt := maxRetries - (k + 1)
    match outcomes attempt with
    | some page => (.success page, [], [attempt])
    | none =>
      let rest := fetchAux outcomes uniform url maxRetries k
      (rest.1, uniform attempt * (attempt + 1) :: rest.2.1, attempt :: rest.2.2)

/-- Embedding of `_get_page_soup`: run `for attempt in range(max_retries)`,
returning on the first success and raising `RuntimeError` after the loop
exhausts the budget. -/
def get_page_soup {α : Type} (outcomes : Nat → Option α) (uniform : Nat → ℚ)
    (url : String) (maxRetries : Nat) : FetchResult α × List ℚ × List Nat :=
  fetchAux outcomes uniform url maxRetries maxRetries

/-- Validation errors of `_build_url` (both raised as `ValueError`). -/
inductive UrlError : Type
  | invalidSeason
  | invalidWindow
deriving DecidableEq

/-- Embedding of `_build_url`. The season is a Python number modelled as an
exact rational, so `float(season).is_integer()` is `season.den = 1`; it is
checked first, then the window must be one of `"s"`/`"w"`; only then is the
query string assembled (`leihe` is 3 with loans and 0 without, `intern` is
`int(internal)`). -/
def build_url (origin : String) (season : ℚ) (window : String)
    (loans internal : Bool) : Except UrlError String :=
  if season.den ≠ 1 then .error .invalidSeason
  else if ¬(window = "s" ∨ window = "w") then .error .invalidWindow
  else .ok (origin ++ "/plus/?saison_id=" ++ toString season.num
    ++ "&s_w=" ++ window
    ++ "&leihe=" ++ (if loans then "3" else "0")
    ++ "&intern=" ++ (if internal then "1" else "0"))

/-- Failure surface of a scrape call down to the fetch. -/
inductive ScrapeError : Type
  | invalidSeason
  | invalidWindow
  | fetchExhausted : String → Nat → ScrapeError
deriving DecidableEq

/-- Embedding of `scrape` down to the fetch: `_build_url` runs first and its
validation errors propagate without any attempt being made; otherwise the
page is fetched with the scripted outcomes. The sleep durations and the
performed attempt indices are passed through. -/
def scrape_fetch {α : Type} (outcomes : Nat → Option α) (uniform : Nat → ℚ)
    (origin : String) (season : ℚ) (window : String) (loans internal : Bool)
    (maxRetries : Nat) : Except ScrapeError α × List ℚ × List Nat :=
  match build_url origin season window loans internal with
  | .error .invalidSeason => (.error .invalidSeason, [], [])
  | .error .invalidWindow => (.error .invalidWindow, [], [])
  | .ok url =>
    match get_page_soup outcomes uniform url maxRetries with
    | (.success page, sleeps, attempts) => (.ok page, sleeps, attempts)
    | (.exhausted u n, sleeps, attempts) => (.error (.fetchExhausted u n), sleeps, attempts)

/-- Model of one table cell (a `td` element) with the three nested pieces the
positional parsers read: the optional `hide-for-small` span with its optional
anchor (visible text and href), the stripped visible text, and the optional
first `img` with its optional `title` attribute. -/
structure Cell : Type where
  playerSpan : Option (Option (String × String))
  text : String
  imgTitle : Option (Option String)
deriving DecidableEq

/-- Values a parsed cell yields: the (name, id) pair of the player cell
(absent when the profile link is missing), plain text, or an image title. -/
inductive CellValue : Type
  | pair : Option (String × Int) → CellValue
  | txt : Option String → CellValue
  | imgv : Option String → CellValue
deriving DecidableEq

/-- Model of Python `int(str)` on the strings at hand: an optional sign
followed by at least one ASCII digit parses, anything else raises
`ValueError` (`none`). -/
def pyInt (s : String) : Option Int :=
  match s.data with
  | '-' :: ds =>
    if !ds.isEmpty && ds.all Char.isDigit then some (-(digitsToNat ds : Int)) else none
  | '+' :: ds =>
    if !ds.isEmpty && ds.all Char.isDigit then some (digitsToNat ds : Int) else none
  | ds =>
    if !ds.isEmpty && ds.all Char.isDigit then some (digitsToNat ds : Int) else none

/-- Embedding of `_parse_player_name_and_id`: when the span and its anchor
are present, the name is the anchor text and the id is `int` of the last
`/`-separated segment of the href; otherwise the pair is `(None, None)`. A
non-numeric id segment raises, modelled as an error. -/
def parse_player_name_and_id (c : Cell) : Except Unit CellValue :=
  match c.playerSpan with
  | some (some a) =>
    match pyInt (String.mk ((pySplit '/' a.2.data).getLastD [])) with
    | some i => .ok (.pair (some (a.1, i)))
    | none => .error ()
  | _ => .ok (.pair none)

/-- Embedding of `_parse_text`: the stripped cell text (each td passed in is
a real element, so the truthiness guard of the source always passes). -/
def parse_text (c : Cell) : CellValue := .txt (some c.text)

/-- Embedding of `_parse_from_img`: the `title` attribute of the first img
in the cell, `None` when there is no img or it has no title. -/
def parse_from_img (c : Cell) : CellValue := .imgv c.imgTitle.join

/-- Embedding of the `parse_col_index` dict of `_soup_to_df`: the positional
parser for each of the nine columns; any further index raises `KeyError`
(`none`). -/
def parse_col_index (j : Nat) : Option (Cell → Except Unit CellValue) :=
  match j with
  | 0 => some parse_player_name_and_id
  | 1 => some (fun c => .ok (parse_text c))
  | 2 => some (fun c => .ok (parse_from_img c))
  | 3 => some (fun c => .ok (parse_text c))
  | 4 => some (fun c => .ok (parse_text c))
  | 5 => some (fun c => .ok (parse_text c))
  | 6 => some (fun c => .ok (parse_from_img c))
  | 7 => some (fun c => .ok (parse_from_img c))
  | 8 => some (fun c => .ok (parse_text c))
  | _ => none

/-- Embedding of the per-row comprehension
`[parse_col_index[j](td) for j, td in enumerate(tds)]`: the cells are parsed
left to right with their 0-based position, the first exception propagating. -/
def parseRowGo (j : Nat) : List Cell → Except Unit (List CellValue)
  | [] => .ok []
  | td :: rest =>
    match parse_col_index j with
    | some f =>
      match f td with
      | .ok v => (parseRowGo (j + 1) rest).map (fun vs => v :: vs)
      | .error e => .error e
    | none => .error ()

/-- Embedding of the row parse, starting the enumeration at position 0. -/
def parseRow (tds : List Cell) : Except Unit (List CellValue) :=
  parseRowGo 0 tds

/-- Embedding of the row loop of `_soup_to_df`: rows are parsed in document
order and the loop breaks at the first row with at most one cell. -/
def extractRows : List (List Cell) → Except Unit (List (List CellValue))
  | [] => .ok []
  | tds :: rest =>
    if tds.length ≤ 1 then .ok []
    else do
      let t ← parseRow tds
      let ts ← extractRows rest
      pure (t :: ts)

/-- Model of a parsed page as `_soup_to_df` reads it: club heading texts and
transfer tables (each a list of rows, each row its td cells), both in
document order. -/
structure Soup : Type where
  clubs : List String
  tables : List (List (List Cell))

/-- Embedding of the alternation in the table loop of `_soup_to_df`:
starting from index `i`, a table with an even 0-based index is appended to
the incoming list and one with an odd index to the outgoing list, exactly as
`dfs_in.append` / `dfs_out.append` run under `enumerate`. -/
def splitGo {α : Type} (i : Nat) : List α → List α × List α
  | [] => ([], [])
  | t :: rest =>
    let r := splitGo (i + 1) rest
    if i % 2 = 0 then (t :: r.1, r.2) else (r.1, t :: r.2)

/-- Embedding of the merge loop
`for club, df_in, df_out in zip(clubs, dfs_in, dfs_out)`: each club
contributes its incoming group then its outgoing group, by position. -/
def mergeBlocks {α : Type} (clubs : List String) (ins outs : List α) :
    List (String × String × α) :=
  ((clubs.zip (ins.zip outs)).map (fun p =>
    [(p.1, "in", p.2.1), (p.1, "out", p.2.2)])).flatten

/-- Failure surface of `_soup_to_df` (both raised as exceptions). -/
inductive PageError : Type
  | unrecognizedPageStructure
  | rowError
deriving DecidableEq

/-- Embedding of the table loop body of `_soup_to_df`: the rows of each
table are extracted in document order, the first exception propagating. -/
def extractTables : List (List (List Cell)) →
    Except PageError (List (List (List CellValue)))
  | [] => .ok []
  | t :: rest =>
    match extractRows t with
    | .ok rows => (extractTables rest).map (fun rs => rows :: rs)
    | .error _ => .error .rowError

/-- Embedding of `_soup_to_df` on the row level (the header bookkeeping and
column renaming add no information the claims touch): zero club headings or
zero tables raise the structural `ValueError("Page structure not
recognized.")`; otherwise the rows of each table are extracted, tables are
alternated into incoming and outgoing lists, and the groups merged with the
clubs by position. -/
def soup_to_df (soup : Soup) :
    Except PageError (List (String × String × List (List CellValue))) :=
  if soup.clubs = [] ∨ soup.tables = [] then .error .unrecognizedPageStructure
  else
    (extractTables soup.tables).map (fun parsed =>
      mergeBlocks soup.clubs (splitGo 0 parsed).1 (splitGo 0 parsed).2)

/-- Final record shape relevant to the output ordering: the three key fields
of the final sort by club, movement and window plus representative
payload fields. -/
structure TransferRecord : Type where
  club : String
  movement : String
  window : String
  player_name : String
  fee : Option ℚ
  is_loan : Bool
deriving DecidableEq

/-- Lexicographic less-or-equal on character lists by code point, the order
pandas uses to compare strings. -/
def listLe : List Char → List Char → Bool
  | [], _ => true
  | _ :: _, [] => false
  | a :: as, b :: bs =>
    if a.toNat < b.toNat then true
    else if b.toNat < a.toNat then false
    else listLe as bs

/-- Sort key comparison of the final sort by club, movement and window:
lexicographic on the triple (club, movement, window), each compared as a
string. -/
def recLe (r s : TransferRecord) : Bool :=
  if r.club ≠ s.club then listLe r.club.data s.club.data
  else if r.movement ≠ s.movement then listLe r.movement.data s.movement.data
  else listLe r.window.data s.window.data

/-- Embedding of the final `df.sort_values` by club, movement and window. -/
def sortRecords (l : List TransferRecord) : List TransferRecord :=
  l.mergeSort recLe

/-- Helper: binding a successful result just applies the continuation. -/
theorem except_bind_ok {ε α β : Type} (a : α) (f : α → Except ε β) :
    (Except.ok a >>= f) = f a := rfl

/-- Helper: binding an exception propagates it. -/
theorem except_bind_error {ε α β : Type} (e : ε) (f : α → Except ε β) :
    ((Except.error e : Except ε α) >>= f) = .error e := rfl

/-- Tokens accepted by the float model: digits and dots with at least one
digit and at most one dot, the success condition of `floatOfToken`. -/
def plainNumeral (cs : List Char) : Prop :=
  (cs.all isNumChar && cs.any Char.isDigit && decide (cs.count '.' ≤ 1)) = true

/-- Helper: an accepted token evaluates to its decimal value. -/
theorem floatOfToken_plain {cs : List Char} (h : plainNumeral cs) :
    floatOfToken cs = some (ratOfNumChars cs) := by
  unfold plainNumeral at h
  unfold floatOfToken
  rw [if_pos h]

/-- Helper: an accepted token is nonempty and all digits-or-dots. -/
theorem plainNumeral_shape {cs : List Char} (h : plainNumeral cs) :
    cs ≠ [] ∧ ∀ c ∈ cs, isNumChar c = true := by
  unfold plainNumeral at h
  simp only [Bool.and_eq_true, List.all_eq_true, List.any_eq_true] at h
  refine ⟨?_, h.1.1⟩
  rintro rfl
  obtain ⟨c, hc, _⟩ := h.1.2
  exact absurd hc (List.not_mem_nil c)

/-- Helper: a nonempty run of digit-or-dot characters is one token. -/
theorem tokenize_num_run : ∀ (rest : List Char), rest ≠ [] →
    (∀ c ∈ rest, isNumChar c = true) → tokenize rest = [rest]
  | [], h1, _ => absurd rfl h1
  | [c], _, h2 => by simp [tokenize, h2 c (by simp)]
  | c :: d :: t, _, h2 => by
    have ih := tokenize_num_run (d :: t) (by simp)
      (fun x hx => h2 x (List.mem_cons_of_mem c hx))
    have unfold1 : tokenize (c :: d :: t) =
        (if isNumChar c then
          match tokenize (d :: t) with
          | (d1 :: t1) :: gs =>
            if isNumChar d1 then (c :: d1 :: t1) :: gs else [c] :: tokenize (d :: t)
          | _ => [c] :: tokenize (d :: t)
         else [c] :: tokenize (d :: t)) := rfl
    rw [unfold1, ih]
    simp [h2 c (by simp), h2 d (by simp)]

/-- Helper: a nonempty digit-or-dot run followed by one other character
tokenizes as the run and a singleton token. -/
theorem tokenize_num_run_then : ∀ (rest : List Char) (u : Char), rest ≠ [] →
    (∀ c ∈ rest, isNumChar c = true) → isNumChar u = false →
    tokenize (rest ++ [u]) = [rest, [u]]
  | [], _, h1, _, _ => absurd rfl h1
  | [c], u, _, h2, hu => by
    simp [tokenize, h2 c (by simp), hu]
  | c :: d :: t, u, _, h2, hu => by
    have ih := tokenize_num_run_then (d :: t) u (by simp)
      (fun x hx => h2 x (List.mem_cons_of_mem c hx)) hu
    have unfold1 : tokenize (c :: ((d :: t) ++ [u])) =
        (if isNumChar c then
          match tokenize ((d :: t) ++ [u]) with
          | (d1 :: t1) :: gs =>
            if isNumChar d1 then (c :: d1 :: t1) :: gs else [c] :: tokenize ((d :: t) ++ [u])
          | _ => [c] :: tokenize ((d :: t) ++ [u])
         else [c] :: tokenize ((d :: t) ++ [u])) := rfl
    rw [List.cons_append, unfold1, ih]
    simp [h2 c (by simp), h2 d (by simp)]

/-- C2: `parse_currency` maps `"-"` to an absent value; otherwise it drops
the leading currency symbol and parses a purely numeric remainder as a plain
float, a remainder of a numeral with a trailing unit suffix as the numeral
scaled by the suffix (`m` times 1,000,000, `k` times 1,000), any other
suffix failing; and the four documented examples evaluate as stated. -/
theorem parse_currency_spec :
    parse_currency "-" = .ok none ∧
    (∀ (c : Char) (rest : List Char), plainNumeral rest →
      parse_currency (String.mk (c :: rest)) = .ok (some (ratOfNumChars rest))) ∧
    (∀ (c u : Char) (rest : List Char), plainNumeral rest → isNumChar u = false →
      parse_currency (String.mk (c :: (rest ++ [u]))) =
        if u = 'm' then .ok (some (ratOfNumChars rest * 1000000))
        else if u = 'k' then .ok (some (ratOfNumChars rest * 1000))
        else .error ()) ∧
    parse_currency "€1.5m" = .ok (some 1500000) ∧
    parse_currency "€750k" = .ok (some 750000) ∧
    parse_currency "€2m" = .ok (some 2000000) := by
  refine ⟨by simp +decide [parse_currency], ?_, ?_, ?_, ?_, ?_⟩
  · intro c rest hp
    obtain ⟨hne, hall⟩ := plainNumeral_shape hp
    have hxne : String.mk (c :: rest) ≠ "-" := by
      intro heq
      have hd : c :: rest = ['-'] := congrArg String.data heq
      exact hne (List.cons.inj hd).2
    unfold parse_currency
    rw [if_neg hxne]
    have hdata : (String.mk (c :: rest)).data.drop 1 = rest := rfl
    rw [hdata, tokenize_num_run rest hne hall]
    simp [floatOfToken_plain hp]
  · intro c u rest hp hu
    obtain ⟨hne, hall⟩ := plainNumeral_shape hp
    have hxne : String.mk (c :: (rest ++ [u])) ≠ "-" := by
      intro heq
      have hd : c :: (rest ++ [u]) = ['-'] := congrArg String.data heq
      have h2 := (List.cons.inj hd).2
      simp at h2
    unfold parse_currency
    rw [if_neg hxne]
    have hdata : (String.mk (c :: (rest ++ [u]))).data.drop 1 = rest ++ [u] := rfl
    rw [hdata, tokenize_num_run_then rest u hne hall hu]
    by_cases hm : u = 'm'
    · subst hm
      simp [floatOfToken_plain hp, multiplier]
    · by_cases hk : u = 'k'
      · subst hk
        simp [floatOfToken_plain hp, multiplier, hm]
      · simp [floatOfToken_plain hp, multiplier, hm, hk]
  · simp +decide [parse_currency, tokenize, isNumChar, floatOfToken, ratOfNumChars, pySplit,
      multiplier, show digitsToNat ['1'] = 1 from by decide,
      show digitsToNat ['5'] = 5 from by decide]
    norm_num
  · simp +decide [parse_currency, tokenize, isNumChar, floatOfToken, ratOfNumChars, pySplit,
      multiplier, show digitsToNat ['7', '5', '0'] = 750 from by decide]
    norm_num
  · simp +decide [parse_currency, tokenize, isNumChar, floatOfToken, ratOfNumChars, pySplit,
      multiplier, show digitsToNat ['2'] = 2 from by decide]
    norm_num

/-- Witness for C2: the universally quantified clauses applied at concrete
inputs, with the hypotheses discharged by evaluation. -/
theorem parse_currency_spec_witness :
    parse_currency (String.mk ['€', '9']) = .ok (some (ratOfNumChars ['9'])) ∧
    parse_currency (String.mk ['€', '9', 'k']) = .ok (some (ratOfNumChars ['9'] * 1000)) := by
  constructor
  · exact parse_currency_spec.2.1 '€' ['9'] (by unfold plainNumeral; decide)
  · have h := parse_currency_spec.2.2.1 '€' 'k' ['9'] (by unfold plainNumeral; decide) (by decide)
    simpa using h

/-- Helper: the only input on which `_parse_currency` returns Python `None`
is `"-"` itself; every other accepted input yields a number. -/
theorem parse_currency_none {s : String} (h : parse_currency s = .ok none) :
    s = "-" := by
  by_cases hs : s = "-"
  · exact hs
  · exfalso
    unfold parse_currency at h
    rw [if_neg hs] at h
    split at h
    · split at h <;> simp_all
    · split at h <;> simp_all
    · simp_all

/-- C10: the missing-value check of `_get_fee_and_loan_status` is Python
substring membership `x in "-?"`, so the empty string and the exact string
`"-?"` — neither of which equals `"-"` or `"?"` — also take the
missing-value branch and yield fee 0, not a loan, without an error. -/
theorem missing_value_membership_spec :
    get_fee_and_loan_status "" = .ok (some 0, false) ∧
    get_fee_and_loan_status "-?" = .ok (some 0, false) ∧
    ("" : String).data <:+: "-?".data ∧
    ("-?" : String).data <:+: "-?".data ∧
    ¬(("" : String) = "-" ∨ ("" : String) = "?") ∧
    ¬(("-?" : String) = "-" ∨ ("-?" : String) = "?") := by
  refine ⟨?_, ?_, by decide, by decide, by decide, by decide⟩
  · simp +decide [get_fee_and_loan_status, pyLower]
  · simp +decide [get_fee_and_loan_status, pyLower]

/-- Helper: a prefix is recovered by taking its length from the whole list. -/
theorem prefix_take {pat l : List Char} (h : pat <+: l) :
    l.take pat.length = pat := by
  obtain ⟨t, rfl⟩ := h
  exact List.take_left pat t

/-- Helper: the zero-fee loan branch of `_get_fee_and_loan_status` — exactly
`"loan transfer"`, or an `"end of loan"` prefix, gives fee 0 with the loan
flag set. -/
theorem fee_branch_loan_no_fee (x : String)
    (h : pyLower x = "loan transfer" ∨ "end of loan".data <+: (pyLower x).data) :
    get_fee_and_loan_status x = .ok (some 0, true) := by
  cases h with
  | inl h1 =>
    have hni : ¬((pyLower x).data <:+: "-?".data) := by rw [h1]; decide
    have hnf : pyLower x ≠ "free transfer" := by rw [h1]; decide
    simp only [get_fee_and_loan_status]
    rw [if_neg hni, if_neg hnf, if_pos (Or.inl h1)]
  | inr h2 =>
    have hni : ¬((pyLower x).data <:+: "-?".data) := by
      intro hinf
      have hl1 := h2.length_le
      have hl2 := hinf.length_le
      have e1 : ("end of loan".data).length = 11 := by decide
      have e2 : ("-?".data).length = 2 := by decide
      omega
    have hnf : pyLower x ≠ "free transfer" := by
      intro heq
      have h3 := prefix_take h2
      rw [heq] at h3
      exact absurd h3 (by decide)
    simp only [get_fee_and_loan_status]
    rw [if_neg hni, if_neg hnf, if_pos (Or.inr h2)]

/-- Counterexample for C1: on the example text of the spec itself,
`"loan fee: €300k"` the code raises (the substring after the colon starts
with a space, so only the space is dropped and `float` on the euro sign
fails) instead
of returning fee 300,000 with the loan flag. -/
theorem fee_and_loan_countereg :
    get_fee_and_loan_status "loan fee: €300k" = .error () ∧
    get_fee_and_loan_status "loan fee: €300k" ≠ .ok (some 300000, true) := by
  have h : get_fee_and_loan_status "loan fee: €300k" = .error () := by
    simp +decide [get_fee_and_loan_status, pyLower, lastColonPart, pySplit, parse_currency,
      tokenize, isNumChar, floatOfToken, multiplier]
  refine ⟨h, ?_⟩
  rw [h]
  intro hc
  cases hc

/-- C1 (amended): `_get_fee_and_loan_status`, on the lowercased text, takes
these branches in priority order: any substring of `"-?"` (so `""`, `"-"`,
`"?"`, `"-?"`) gives fee 0, not a loan; exactly `"free transfer"` gives fee
0, not a loan; exactly `"loan transfer"` or an `"end of loan"` prefix gives
fee 0, is a loan; a `"loan fee"` prefix parses the substring after the last
colon through the currency parser (which drops the first character of that
substring) with the loan flag set; anything else parses the whole text via
the currency parser, not a loan. The example `"loan fee:€300k"` (no space,
as the raw cells have) gives (300,000, loan); the other three documented
examples evaluate as stated. -/
theorem fee_and_loan_spec :
    (∀ x : String, (pyLower x).data <:+: "-?".data →
      get_fee_and_loan_status x = .ok (some 0, false)) ∧
    (∀ x : String, pyLower x = "free transfer" →
      get_fee_and_loan_status x = .ok (some 0, false)) ∧
    (∀ x : String, pyLower x = "loan transfer" ∨ "end of loan".data <+: (pyLower x).data →
      get_fee_and_loan_status x = .ok (some 0, true)) ∧
    (∀ x : String, "loan fee".data <+: (pyLower x).data →
      get_fee_and_loan_status x =
        (parse_currency (lastColonPart (pyLower x))).map (fun fee => (fee, true))) ∧
    (∀ x : String, ¬((pyLower x).data <:+: "-?".data) → pyLower x ≠ "free transfer" →
      ¬(pyLower x = "loan transfer" ∨ "end of loan".data <+: (pyLower x).data) →
      ¬("loan fee".data <+: (pyLower x).data) →
      get_fee_and_loan_status x =
        (parse_currency (pyLower x)).map (fun fee => (fee, false))) ∧
    get_fee_and_loan_status "loan fee:€300k" = .ok (some 300000, true) ∧
    get_fee_and_loan_status "free transfer" = .ok (some 0, false) ∧
    get_fee_and_loan_status "end of loan" = .ok (some 0, true) ∧
    get_fee_and_loan_status "-" = .ok (some 0, false) := by
  refine ⟨?_, ?_, ?_, ?_, ?_, ?_, ?_, ?_, ?_⟩
  · intro x h
    simp only [get_fee_and_loan_status]
    rw [if_pos h]
  · intro x h
    have hni : ¬((pyLower x).data <:+: "-?".data) := by rw [h]; decide
    simp only [get_fee_and_loan_status]
    rw [if_neg hni, if_pos h]
  · exact fee_branch_loan_no_fee
  · intro x h
    have hni : ¬((pyLower x).data <:+: "-?".data) := by
      intro hinf
      have hl1 := h.length_le
      have hl2 := hinf.length_le
      have e1 : ("loan fee".data).length = 8 := by decide
      have e2 : ("-?".data).length = 2 := by decide
      omega
    have hnf : pyLower x ≠ "free transfer" := by
      intro heq
      have h3 := prefix_take h
      rw [heq] at h3
      exact absurd h3 (by decide)
    have hnl : ¬(pyLower x = "loan transfer" ∨ "end of loan".data <+: (pyLower x).data) := by
      rintro (h1 | h2)
      · have h3 := prefix_take h
        rw [h1] at h3
        exact absurd h3 (by decide)
      · have h3 := prefix_take h
        have h4 := prefix_take h2
        have h5 : (pyLower x).data.take ("loan fee".data.length) =
            ((pyLower x).data.take ("end of loan".data.length)).take
              ("loan fee".data.length) := by
          rw [List.take_take]
          rw [show ("loan fee".data.length ⊓ "end of loan".data.length) =
            "loan fee".data.length from by decide]
        rw [h4, h3] at h5
        exact absurd h5 (by decide)
    simp only [get_fee_and_loan_status]
    rw [if_neg hni, if_neg hnf, if_neg hnl, if_pos h]
  · intro x h1 h2 h3 h4
    simp only [get_fee_and_loan_status]
    rw [if_neg h1, if_neg h2, if_neg h3, if_neg h4]
  · simp +decide [get_fee_and_loan_status, pyLower, lastColonPart, pySplit, parse_currency,
      tokenize, isNumChar, floatOfToken, ratOfNumChars, multiplier, Except.map,
      show digitsToNat ['3', '0', '0'] = 300 from by decide]
    norm_num
  · simp +decide [get_fee_and_loan_status, pyLower]
  · simp +decide [get_fee_and_loan_status, pyLower]
  · simp +decide [get_fee_and_loan_status, pyLower]

/-- Witness for C1: each quantified branch clause applied at one concrete
input with its hypotheses discharged by evaluation. -/
theorem fee_and_loan_spec_witness :
    get_fee_and_loan_status "?" = .ok (some 0, false) ∧
    get_fee_and_loan_status "Free Transfer" = .ok (some 0, false) ∧
    get_fee_and_loan_status "end of loan today" = .ok (some 0, true) ∧
    get_fee_and_loan_status "loan fee:x" =
      (parse_currency (lastColonPart (pyLower "loan fee:x"))).map (fun fee => (fee, true)) ∧
    get_fee_and_loan_status "€5m" =
      (parse_currency (pyLower "€5m")).map (fun fee => (fee, false)) := by
  refine ⟨?_, ?_, ?_, ?_, ?_⟩
  · exact fee_and_loan_spec.1 "?" (by decide)
  · exact fee_and_loan_spec.2.1 "Free Transfer" (by decide)
  · exact fee_and_loan_spec.2.2.1 "end of loan today" (Or.inr (by decide))
  · exact fee_and_loan_spec.2.2.2.1 "loan fee:x" (by decide)
  · exact fee_and_loan_spec.2.2.2.2.1 "€5m" (by decide) (by decide) (by decide) (by decide)

/-- Counterexample for C3: the raw fee text `"loan fee:-"` is accepted
without an error, yet its fee is Python `None` — absent, not a resolved
number — because the part after the colon is exactly the missing-value
string of the currency parser. -/
theorem fee_resolved_countereg :
    get_fee_and_loan_status "loan fee:-" = .ok (none, true) := by
  simp +decide [get_fee_and_loan_status, pyLower, lastColonPart, pySplit, parse_currency]

/-- C3 (amended): for every raw fee text the normalizer accepts, the fee is
a resolved number except in one case: when the lowercased text starts with
`"loan fee"` and the substring after its last colon is exactly `"-"`, the
fee is left absent (with the loan flag set). In particular fee 0 (not
absent) is produced whenever the loan flag is set with no fee text present
(`"loan transfer"` / `"end of loan"`). -/
theorem fee_resolved_amended :
    (∀ (x : String) (fee : Option ℚ) (loan : Bool),
      get_fee_and_loan_status x = .ok (fee, loan) → fee = none →
      "loan fee".data <+: (pyLower x).data ∧ lastColonPart (pyLower x) = "-") ∧
    (∀ x : String,
      pyLower x = "loan transfer" ∨ "end of loan".data <+: (pyLower x).data →
      get_fee_and_loan_status x = .ok (some 0, true)) := by
  constructor
  · intro x fee loan h hn
    by_cases c1 : (pyLower x).data <:+: "-?".data
    · simp only [get_fee_and_loan_status] at h
      rw [if_pos c1] at h
      cases h
      simp at hn
    · by_cases c2 : pyLower x = "free transfer"
      · simp only [get_fee_and_loan_status] at h
        rw [if_neg c1, if_pos c2] at h
        cases h
        simp at hn
      · by_cases c3 : pyLower x = "loan transfer" ∨ "end of loan".data <+: (pyLower x).data
        · simp only [get_fee_and_loan_status] at h
          rw [if_neg c1, if_neg c2, if_pos c3] at h
          cases h
          simp at hn
        · by_cases c4 : "loan fee".data <+: (pyLower x).data
          · simp only [get_fee_and_loan_status] at h
            rw [if_neg c1, if_neg c2, if_neg c3, if_pos c4] at h
            rcases hpc : parse_currency (lastColonPart (pyLower x)) with e | v
            · rw [hpc] at h
              simp [Except.map] at h
            · rw [hpc] at h
              simp [Except.map] at h
              rw [hn] at h
              exact ⟨c4, parse_currency_none (h.1 ▸ hpc)⟩
          · simp only [get_fee_and_loan_status] at h
            rw [if_neg c1, if_neg c2, if_neg c3, if_neg c4] at h
            rcases hpc : parse_currency (pyLower x) with e | v
            · rw [hpc] at h
              simp [Except.map] at h
            · rw [hpc] at h
              simp [Except.map] at h
              rw [hn] at h
              have hdash := parse_currency_none (h.1 ▸ hpc)
              refine absurd ?_ c1
              rw [hdash]
              decide
  · exact fee_branch_loan_no_fee

/-- Witness for C3: the quantified clauses applied at the concrete inputs
`"loan fee:-"` (fee absent only in the loan-fee-colon-dash shape) and
`"loan transfer"` (loan with no fee text gives fee 0). -/
theorem fee_resolved_amended_witness :
    ("loan fee".data <+: (pyLower "loan fee:-").data ∧
      lastColonPart (pyLower "loan fee:-") = "-") ∧
    get_fee_and_loan_status "loan transfer" = .ok (some 0, true) := by
  constructor
  · exact fee_resolved_amended.1 "loan fee:-" none true
      (by simp +decide [get_fee_and_loan_status, pyLower, lastColonPart, pySplit,
        parse_currency]) rfl
  · exact fee_resolved_amended.2 "loan transfer" (Or.inl (by decide))

/-- C4: with a 5-attempt budget, four scripted transient failures followed
by a success make the Fetcher return the success, sleeping exactly four
times with the sleep after 1-based attempt `i` within `[2i, 5i)`; five
scripted failures make it fail with the exhaustion error carrying the URL
and attempt count, performing attempts 0 through 4 and no 6th attempt, and
returning no partial result. -/
theorem fetcher_retry_spec {α : Type} :
    (∀ (outcomes : Nat → Option α) (uniform : Nat → ℚ) (url : String) (p : α),
      (∀ i, i < 4 → outcomes i = none) → outcomes 4 = some p →
      (∀ i, 2 ≤ uniform i ∧ uniform i < 5) →
      (get_page_soup outcomes uniform url 5).1 = .success p ∧
      (get_page_soup outcomes uniform url 5).2.1.length = 4 ∧
      (∀ i (hi : i < (get_page_soup outcomes uniform url 5).2.1.length),
        2 * (i + 1) ≤ (get_page_soup outcomes uniform url 5).2.1.get ⟨i, hi⟩ ∧
        (get_page_soup outcomes uniform url 5).2.1.get ⟨i, hi⟩ < 5 * (i + 1)) ∧
      (get_page_soup outcomes uniform url 5).2.2 = [0, 1, 2, 3, 4]) ∧
    (∀ (outcomes : Nat → Option α) (uniform : Nat → ℚ) (url : String),
      (∀ i, i < 5 → outcomes i = none) →
      (get_page_soup outcomes uniform url 5).1 = .exhausted url 5 ∧
      (get_page_soup outcomes uniform url 5).2.2 = [0, 1, 2, 3, 4]) := by
  constructor
  · intro outcomes uniform url p h04 h4 hu
    have key : get_page_soup outcomes uniform url 5 =
        (.success p,
         [uniform 0 * 1, uniform 1 * 2, uniform 2 * 3, uniform 3 * 4],
         [0, 1, 2, 3, 4]) := by
      simp only [get_page_soup, fetchAux, h04 0 (by norm_num), h04 1 (by norm_num),
        h04 2 (by norm_num), h04 3 (by norm_num)]
      norm_num [h4]
    rw [key]
    refine ⟨rfl, rfl, ?_, rfl⟩
    intro i hi
    simp only [List.length_cons, List.length_nil] at hi
    interval_cases i <;>
      refine ⟨?_, ?_⟩ <;>
      simp only [List.get] <;>
      push_cast <;>
      nlinarith [(hu 0).1, (hu 0).2, (hu 1).1, (hu 1).2, (hu 2).1, (hu 2).2,
        (hu 3).1, (hu 3).2]
  · intro outcomes uniform url h05
    have key : (get_page_soup outcomes uniform url 5).1 = .exhausted url 5 ∧
        (get_page_soup outcomes uniform url 5).2.2 = [0, 1, 2, 3, 4] := by
      simp only [get_page_soup, fetchAux, h05 0 (by norm_num), h05 1 (by norm_num),
        h05 2 (by norm_num), h05 3 (by norm_num), h05 4 (by norm_num)]
      norm_num
    exact key

/-- Witness for C4: both scenarios instantiated with scripted outcomes (four
failures then page 7; five failures) and a constant draw of 3. -/
theorem fetcher_retry_spec_witness :
    (get_page_soup (fun i => if i = 4 then some 7 else none) (fun _ => (3 : ℚ)) "u" 5).1 =
      .success 7 ∧
    (get_page_soup (fun i => if i = 4 then some 7 else none) (fun _ => (3 : ℚ)) "u" 5).2.2 =
      [0, 1, 2, 3, 4] ∧
    (get_page_soup (fun _ => (none : Option ℕ)) (fun _ => (3 : ℚ)) "v" 5).1 =
      .exhausted "v" 5 := by
  have h1 := fetcher_retry_spec.1 (fun i => if i = 4 then some 7 else none)
    (fun _ => (3 : ℚ)) "u" 7 (by decide) (by decide) (fun i => by norm_num)
  have h2 := fetcher_retry_spec.2 (fun _ => (none : Option ℕ)) (fun _ => (3 : ℚ)) "v"
    (fun i _ => rfl)
  exact ⟨h1.1, h1.2.2.2, h2.1⟩

/-- C5: a page with zero club headings or zero tables makes `_soup_to_df`
raise the structural error — it never returns an empty success, and the
function performs no retry (it is a single pass over the parsed page). -/
theorem structural_error_spec (soup : Soup)
    (h : soup.clubs = [] ∨ soup.tables = []) :
    soup_to_df soup = .error .unrecognizedPageStructure := by
  unfold soup_to_df
  rw [if_pos h]

/-- Witness for C5: a page with no club headings but one (empty) table. -/
theorem structural_error_spec_witness :
    soup_to_df ⟨[], [[]]⟩ = .error .unrecognizedPageStructure :=
  structural_error_spec ⟨[], [[]]⟩ (Or.inl rfl)

/-- C8: a non-integral season is rejected with the season validation error
and a window other than `"s"`/`"w"` with the window validation error, in
both cases before any fetch attempt is made (no attempt indices, no
sleeps). -/
theorem url_validation_spec {α : Type} :
    (∀ (outcomes : Nat → Option α) (uniform : Nat → ℚ) (origin : String) (season : ℚ)
       (window : String) (loans internal : Bool) (m : Nat),
      season.den ≠ 1 →
      scrape_fetch outcomes uniform origin season window loans internal m =
        (.error .invalidSeason, [], [])) ∧
    (∀ (outcomes : Nat → Option α) (uniform : Nat → ℚ) (origin : String) (season : ℚ)
       (window : String) (loans internal : Bool) (m : Nat),
      season.den = 1 → window ≠ "s" → window ≠ "w" →
      scrape_fetch outcomes uniform origin season window loans internal m =
        (.error .invalidWindow, [], [])) := by
  constructor
  · intro outcomes uniform origin season window loans internal m h
    unfold scrape_fetch build_url
    rw [if_pos h]
  · intro outcomes uniform origin season window loans internal m h hs hw
    unfold scrape_fetch build_url
    rw [if_neg (fun hc => hc h), if_pos (by rintro (h1 | h1) <;> simp_all)]

/-- Witness for C8: the season five halves (a non-integral year) and the
window string `"x"` are both rejected with no attempt made. -/
theorem url_validation_spec_witness :
    scrape_fetch (fun _ => (none : Option ℕ)) (fun _ => 3) "o"
      (Rat.mk' 5 2 (by norm_num) (by norm_num)) "s" true false 5 =
      (.error .invalidSeason, [], []) ∧
    scrape_fetch (fun _ => (none : Option ℕ)) (fun _ => 3) "o" 2020 "x" true false 5 =
      (.error .invalidWindow, [], []) := by
  constructor
  · exact url_validation_spec.1 _ _ "o" _ "s" true false 5 (by decide)
  · exact url_validation_spec.2 _ _ "o" 2020 "x" true false 5 (by decide) (by decide)
      (by decide)

/-- C6: row extraction stops at the first row with at most one cell and
extracts nothing past it, and a 9-cell data row is interpreted positionally:
player compound cell, age text, nationality from the image title, position
text, market value text, dealing-club text, dealing-country image title, a
second image title, fee text. -/
theorem row_extraction_spec :
    (∀ (pre : List (List Cell)) (r : List Cell) (post : List (List Cell)),
      (∀ row ∈ pre, 1 < row.length) → r.length ≤ 1 →
      extractRows (pre ++ r :: post) = extractRows pre) ∧
    (∀ (c0 c1 c2 c3 c4 c5 c6 c7 c8 : Cell) (v0 : CellValue),
      parse_player_name_and_id c0 = .ok v0 →
      parseRow [c0, c1, c2, c3, c4, c5, c6, c7, c8] =
        .ok [v0, parse_text c1, parse_from_img c2, parse_text c3, parse_text c4,
          parse_text c5, parse_from_img c6, parse_from_img c7, parse_text c8]) := by
  constructor
  · intro pre r post
    induction pre with
    | nil =>
      intro _ hr
      simp [extractRows, hr]
    | cons p pre ih =>
      intro hpre hr
      have hp : ¬(p.length ≤ 1) := by
        have := hpre p (by simp)
        omega
      simp only [List.cons_append, extractRows, List.append_eq]
      rw [if_neg hp, if_neg hp, ih (fun row hrow => hpre row (by simp [hrow])) hr]
  · intro c0 c1 c2 c3 c4 c5 c6 c7 c8 v0 h
    simp [parseRow, parseRowGo, parse_col_index, h, Except.map]

/-- Witness for C6: both clauses at concrete cells — a two-cell data row, a
one-cell stop row, a later row that is not extracted, and a 9-cell row. -/
theorem row_extraction_spec_witness :
    extractRows ([[⟨none, "t", none⟩, ⟨none, "u", none⟩]] ++
        [⟨none, "s", none⟩] :: [[⟨none, "v", none⟩, ⟨none, "w", none⟩]]) =
      extractRows [[⟨none, "t", none⟩, ⟨none, "u", none⟩]] ∧
    parseRow [⟨none, "a", none⟩, ⟨none, "b", none⟩, ⟨none, "c", none⟩,
        ⟨none, "d", none⟩, ⟨none, "e", none⟩, ⟨none, "f", none⟩,
        ⟨none, "g", none⟩, ⟨none, "h", none⟩, ⟨none, "i", none⟩] =
      .ok [.pair none, parse_text ⟨none, "b", none⟩, parse_from_img ⟨none, "c", none⟩,
        parse_text ⟨none, "d", none⟩, parse_text ⟨none, "e", none⟩,
        parse_text ⟨none, "f", none⟩, parse_from_img ⟨none, "g", none⟩,
        parse_from_img ⟨none, "h", none⟩, parse_text ⟨none, "i", none⟩] := by
  constructor
  · exact row_extraction_spec.1 [[⟨none, "t", none⟩, ⟨none, "u", none⟩]]
      [⟨none, "s", none⟩] [[⟨none, "v", none⟩, ⟨none, "w", none⟩]]
      (by decide) (by decide)
  · exact row_extraction_spec.2 ⟨none, "a", none⟩ ⟨none, "b", none⟩ ⟨none, "c", none⟩
      ⟨none, "d", none⟩ ⟨none, "e", none⟩ ⟨none, "f", none⟩ ⟨none, "g", none⟩
      ⟨none, "h", none⟩ ⟨none, "i", none⟩ (.pair none) rfl

/-- Helper: only the parity of the starting index matters to the split. -/
theorem splitGo_parity {α : Type} : ∀ (l : List α) (i : Nat),
    splitGo (i + 2) l = splitGo i l
  | [], _ => rfl
  | t :: rest, i => by
    have ih := splitGo_parity rest (i + 1)
    have h2 : (i + 2) % 2 = i % 2 := by omega
    simp only [splitGo]
    rw [show i + 2 + 1 = i + 1 + 2 from by omega, ih, h2]

/-- Helper: the split consumes tables two at a time, the first of each pair
incoming and the second outgoing. -/
theorem splitGo_zero_cons2 {α : Type} (a b : α) (l : List α) :
    splitGo 0 (a :: b :: l) = (a :: (splitGo 0 l).1, b :: (splitGo 0 l).2) := by
  simp only [splitGo]
  norm_num
  rw [show (2 : Nat) = 0 + 2 from rfl, splitGo_parity l 0]
  exact ⟨rfl, rfl⟩

/-- Helper: positionally, entry `i` of the incoming list is table `2i` and
entry `i` of the outgoing list is table `2i + 1`. -/
theorem splitGo_get {α : Type} : ∀ (i : Nat) (tables : List α),
    (splitGo 0 tables).1[i]? = tables[2 * i]? ∧
    (splitGo 0 tables).2[i]? = tables[2 * i + 1]?
  | 0, [] => by simp [splitGo]
  | 0, [a] => by simp [splitGo]
  | 0, a :: b :: l => by rw [splitGo_zero_cons2]; simp
  | i + 1, [] => by simp [splitGo]
  | i + 1, [a] => by
    constructor
    · have h1 : (splitGo 0 [a]).1 = [a] := rfl
      rw [h1, List.getElem?_eq_none (by simp only [List.length_singleton]; omega),
        List.getElem?_eq_none (by simp only [List.length_singleton]; omega)]
    · have h2 : (splitGo 0 [a]).2 = ([] : List α) := rfl
      rw [h2, List.getElem?_eq_none (by simp only [List.length_nil]; omega),
        List.getElem?_eq_none (by simp only [List.length_singleton]; omega)]
  | i + 1, a :: b :: l => by
    have ih := splitGo_get i l
    rw [splitGo_zero_cons2]
    constructor
    · rw [show 2 * (i + 1) = 2 * i + 1 + 1 from by omega]
      simp only [List.getElem?_cons_succ]
      exact ih.1
    · rw [show 2 * (i + 1) + 1 = 2 * i + 1 + 1 + 1 from by omega]
      simp only [List.getElem?_cons_succ]
      exact ih.2

/-- C7: tables alternate by document position — the table at even index `2i`
becomes entry `i` of the incoming direction and the table at odd index
`2i + 1` entry `i` of the outgoing direction — and a page with 2 clubs, each
with one incoming and one outgoing table, yields exactly 4 row groups with
club and movement paired by position. -/
theorem table_alternation_spec :
    (∀ (tables : List (List (List Cell))) (i : Nat),
      (splitGo 0 tables).1[i]? = tables[2 * i]? ∧
      (splitGo 0 tables).2[i]? = tables[2 * i + 1]?) ∧
    (∀ (n₁ n₂ : String) (a b c d : List (List Cell))
       (ra rb rc rd : List (List CellValue)),
      extractRows a = .ok ra → extractRows b = .ok rb →
      extractRows c = .ok rc → extractRows d = .ok rd →
      soup_to_df ⟨[n₁, n₂], [a, b, c, d]⟩ =
        .ok [(n₁, "in", ra), (n₁, "out", rb), (n₂, "in", rc), (n₂, "out", rd)]) := by
  constructor
  · exact fun tables i => splitGo_get i tables
  · intro n₁ n₂ a b c d ra rb rc rd ha hb hc hd
    unfold soup_to_df
    rw [if_neg (by simp)]
    simp [extractTables, ha, hb, hc, hd, Except.map, splitGo, mergeBlocks]

/-- Witness for C7: the 2-club page instantiated with concrete tables (each
table one 2-cell row, extracting to one 2-value row). -/
theorem table_alternation_spec_witness :
    soup_to_df ⟨["A", "B"],
      [[[⟨none, "a", none⟩, ⟨none, "b", none⟩]],
       [[⟨none, "c", none⟩, ⟨none, "d", none⟩]],
       [[⟨none, "e", none⟩, ⟨none, "f", none⟩]],
       [[⟨none, "g", none⟩, ⟨none, "h", none⟩]]]⟩ =
      .ok [("A", "in", [[.pair none, .txt (some "b")]]),
        ("A", "out", [[.pair none, .txt (some "d")]]),
        ("B", "in", [[.pair none, .txt (some "f")]]),
        ("B", "out", [[.pair none, .txt (some "h")]])] := by
  exact table_alternation_spec.2 "A" "B" _ _ _ _ _ _ _ _
    (by simp [extractRows, parseRow, parseRowGo, parse_col_index,
      parse_player_name_and_id, parse_text, Except.map, except_bind_ok])
    (by simp [extractRows, parseRow, parseRowGo, parse_col_index,
      parse_player_name_and_id, parse_text, Except.map, except_bind_ok])
    (by simp [extractRows, parseRow, parseRowGo, parse_col_index,
      parse_player_name_and_id, parse_text, Except.map, except_bind_ok])
    (by simp [extractRows, parseRow, parseRowGo, parse_col_index,
      parse_player_name_and_id, parse_text, Except.map, except_bind_ok])

/-- Helper: characters with equal code points are equal. -/
theorem char_toNat_inj {a b : Char} (h : a.toNat = b.toNat) : a = b := by
  rw [← Char.ofNat_toNat a, ← Char.ofNat_toNat b, h]

/-- Helper: the lexicographic comparison is total. -/
theorem listLe_total : ∀ (a b : List Char), (listLe a b || listLe b a) = true
  | [], [] => by simp [listLe]
  | [], _ :: _ => by simp [listLe]
  | _ :: _, [] => by simp [listLe]
  | a :: as, b :: bs => by
    simp only [listLe]
    by_cases h1 : a.toNat < b.toNat
    · simp [h1]
    · by_cases h2 : b.toNat < a.toNat
      · simp [h1, h2]
      · simp [h1, h2, listLe_total as bs]

/-- Helper: the lexicographic comparison is transitive. -/
theorem listLe_trans : ∀ (a b c : List Char),
    listLe a b = true → listLe b c = true → listLe a c = true
  | [], _, _, _, _ => by simp [listLe]
  | _ :: _, [], _, h1, _ => by simp [listLe] at h1
  | _ :: _, _ :: _, [], _, h2 => by simp [listLe] at h2
  | a :: as, b :: bs, c :: cs, h1, h2 => by
    simp only [listLe] at h1 h2 ⊢
    by_cases hab : a.toNat < b.toNat
    · by_cases hbc : b.toNat < c.toNat
      · simp [show a.toNat < c.toNat from by omega]
      · by_cases hcb : c.toNat < b.toNat
        · simp [hbc, hcb] at h2
        · simp [show a.toNat < c.toNat from by omega]
    · by_cases hba : b.toNat < a.toNat
      · simp [hab, hba] at h1
      · by_cases hbc : b.toNat < c.toNat
        · simp [show a.toNat < c.toNat from by omega]
        · by_cases hcb : c.toNat < b.toNat
          · simp [hbc, hcb] at h2
          · have h1x : listLe as bs = true := by simpa [hab, hba] using h1
            have h2x : listLe bs cs = true := by simpa [hbc, hcb] using h2
            simp [show ¬(a.toNat < c.toNat) from by omega,
              show ¬(c.toNat < a.toNat) from by omega, listLe_trans as bs cs h1x h2x]

/-- Helper: the lexicographic comparison is antisymmetric. -/
theorem listLe_antisymm : ∀ (a b : List Char),
    listLe a b = true → listLe b a = true → a = b
  | [], [], _, _ => rfl
  | [], _ :: _, _, h2 => by simp [listLe] at h2
  | _ :: _, [], h1, _ => by simp [listLe] at h1
  | a :: as, b :: bs, h1, h2 => by
    by_cases hab : a.toNat < b.toNat
    · simp [listLe, hab, show ¬(b.toNat < a.toNat) from by omega] at h2
    · by_cases hba : b.toNat < a.toNat
      · simp [listLe, hab, hba] at h1
      · have hch : a = b := char_toNat_inj (by omega)
        have h1x : listLe as bs = true := by simpa [listLe, hab, hba] using h1
        have h2x : listLe bs as = true := by simpa [listLe, hab, hba] using h2
        rw [hch, listLe_antisymm as bs h1x h2x]

/-- Helper: strings with equal character data are equal. -/
theorem string_data_inj {a b : String} (h : a.data = b.data) : a = b := by
  cases a
  cases b
  exact congrArg String.mk h

/-- Helper: the record comparison is total. -/
theorem recLe_total (a b : TransferRecord) : (recLe a b || recLe b a) = true := by
  unfold recLe
  by_cases e1 : a.club = b.club
  · rw [e1]
    simp only [ne_eq, not_true_eq_false, if_false, reduceIte]
    by_cases e2 : a.movement = b.movement
    · rw [e2]
      simp only [ne_eq, not_true_eq_false, if_false, reduceIte]
      exact listLe_total _ _
    · rw [if_pos e2, if_pos (fun h => e2 h.symm)]
      exact listLe_total _ _
  · rw [if_pos e1, if_pos (fun h => e1 h.symm)]
    exact listLe_total _ _

/-- Helper: the record comparison is transitive. -/
theorem recLe_trans (a b c : TransferRecord)
    (h1 : recLe a b = true) (h2 : recLe b c = true) : recLe a c = true := by
  unfold recLe at h1 h2 ⊢
  by_cases e1 : a.club = b.club
  · by_cases e2 : b.club = c.club
    · have e3 : a.club = c.club := e1.trans e2
      rw [e1] at h1
      rw [e2] at h2
      rw [e3]
      simp only [ne_eq, not_true_eq_false, if_false, reduceIte] at h1 h2 ⊢
      by_cases f1 : a.movement = b.movement
      · by_cases f2 : b.movement = c.movement
        · have f3 : a.movement = c.movement := f1.trans f2
          rw [f1] at h1
          rw [f2] at h2
          rw [f3]
          simp only [ne_eq, not_true_eq_false, if_false, reduceIte] at h1 h2 ⊢
          exact listLe_trans _ _ _ h1 h2
        · rw [f1] at h1 ⊢
          rw [if_pos f2] at h2
          rw [if_pos f2]
          exact h2
      · rw [if_pos f1] at h1
        by_cases f2 : b.movement = c.movement
        · rw [← f2]
          rw [if_pos f1]
          exact h1
        · rw [if_pos f2] at h2
          by_cases f3 : a.movement = c.movement
          · exfalso
            rw [← f3] at h2
            exact f1 (string_data_inj (listLe_antisymm _ _ h1 h2))
          · rw [if_pos f3]
            exact listLe_trans _ _ _ h1 h2
    · rw [e1] at h1 ⊢
      rw [if_pos e2] at h2
      rw [if_pos e2]
      exact h2
  · rw [if_pos e1] at h1
    by_cases e2 : b.club = c.club
    · rw [← e2]
      rw [if_pos e1]
      exact h1
    · rw [if_pos e2] at h2
      by_cases e3 : a.club = c.club
      · exfalso
        rw [← e3] at h2
        exact e1 (string_data_inj (listLe_antisymm _ _ h1 h2))
      · rw [if_pos e3]
        exact listLe_trans _ _ _ h1 h2

/-- C9: for every extracted record set, the normalized output is sorted —
pairwise non-decreasing under the (club, movement, window) comparison — and
is a permutation of the input, independent of extraction order; under that
comparison `in` sorts before `out` within a club, and `summer` before
`winter` within a club and movement. -/
theorem sort_order_spec :
    (∀ l : List TransferRecord,
      List.Pairwise (fun a b => recLe a b = true) (sortRecords l) ∧
      (sortRecords l).Perm l) ∧
    (∀ a b : TransferRecord, a.club = b.club → a.movement = "in" →
      b.movement = "out" → recLe a b = true) ∧
    (∀ a b : TransferRecord, a.club = b.club → a.movement = b.movement →
      a.window = "summer" → b.window = "winter" → recLe a b = true) := by
  refine ⟨?_, ?_, ?_⟩
  · intro l
    unfold sortRecords
    exact ⟨List.sorted_mergeSort recLe_trans recLe_total l, List.mergeSort_perm l recLe⟩
  · intro a b h1 h2 h3
    unfold recLe
    rw [h1, h2, h3]
    simp only [ne_eq, not_true_eq_false, if_false, reduceIte]
    rw [if_pos (by decide)]
    decide
  · intro a b h1 h2 h3 h4
    unfold recLe
    rw [h1, h2, h3, h4]
    simp only [ne_eq, not_true_eq_false, if_false, reduceIte]
    decide

/-- Witness for C9: the ordering clauses at concrete records with one club —
incoming before outgoing, and summer before winter within a movement. -/
theorem sort_order_spec_witness :
    recLe ⟨"A", "in", "summer", "p", none, false⟩
      ⟨"A", "out", "summer", "q", none, false⟩ = true ∧
    recLe ⟨"A", "in", "summer", "p", none, false⟩
      ⟨"A", "in", "winter", "q", none, false⟩ = true := by
  constructor
  · exact sort_order_spec.2.1 _ _ rfl rfl rfl
  · exact sort_order_spec.2.2 _ _ rfl rfl rfl rfl
